import Mathlib

/-!
Shallow embedding of `examples/batch_processing/batch_calculator_agent.py`:
the calculator (`_perform_calculation`), the tool-use dispatcher
(`_process_tool_use`), the batch request builder (`_create_batch_requests`)
and the polling monitor loop (`_monitor_batch_progress`), together with
theorems settling the specification claims about them.

Python numbers are modelled as tagged values (`PyNum`): an `int` carries an
integer, a `float` carries an exact rational (the claims at stake concern
only the int/float tag discipline and exact arithmetic identities, never
rounding).  Python exceptions raised by the calculator are modelled with
`Except` and a `PyError` type carrying the `str(e)` message.
-/

/-- A Python number: either an `int` or a `float`.  The float payload is an
exact rational; the embedding tracks Python's numeric-tag discipline
(`int + int = int`, any float operand makes the result a float, true
division always yields a float). -/
inductive PyNum where
  | pint : Int → PyNum
  | pfloat : ℚ → PyNum
deriving DecidableEq, Repr

/-- Numeric value of a Python number. -/
def PyNum.val : PyNum → ℚ
  | .pint n => (n : ℚ)
  | .pfloat q => q

/-- Whether the Python number carries the `float` tag. -/
def PyNum.isFloat : PyNum → Bool
  | .pint _ => false
  | .pfloat _ => true

/-- Python `+` on numbers: `int + int` is an `int`, otherwise a `float`. -/
def PyNum.add : PyNum → PyNum → PyNum
  | .pint a, .pint b => .pint (a + b)
  | a, b => .pfloat (a.val + b.val)

/-- Python `-` on numbers: `int - int` is an `int`, otherwise a `float`. -/
def PyNum.sub : PyNum → PyNum → PyNum
  | .pint a, .pint b => .pint (a - b)
  | a, b => .pfloat (a.val - b.val)

/-- Python `*` on numbers: `int * int` is an `int`, otherwise a `float`. -/
def PyNum.mul : PyNum → PyNum → PyNum
  | .pint a, .pint b => .pint (a * b)
  | a, b => .pfloat (a.val * b.val)

/-- A raised Python exception, carrying the message `str(e)` would produce. -/
inductive PyError where
  | valueError : String → PyError
  | zeroDivisionError : String → PyError
  | indexError : String → PyError
  | keyError : String → PyError
deriving DecidableEq, Repr

/-- The message `str(e)` yields for the exception. -/
def PyError.str : PyError → String
  | .valueError m => m
  | .zeroDivisionError m => m
  | .indexError m => m
  | .keyError m => m

/-- Python `/` (true division): always yields a `float`; raises
`ZeroDivisionError` when the divisor is zero (message as CPython prints it:
`division by zero` for `int / int`, `float division by zero` otherwise). -/
def PyNum.div (a b : PyNum) : Except PyError PyNum :=
  if b.val = 0 then
    .error (.zeroDivisionError
      (if a.isFloat || b.isFloat then "float division by zero" else "division by zero"))
  else
    .ok (.pfloat (a.val / b.val))

/-- Python `sum(numbers)`: left fold of `+` starting from the `int` `0`. -/
def pysum (l : List PyNum) : PyNum :=
  l.foldl PyNum.add (.pint 0)

/-- Embedding of `BatchCalculatorAgent._perform_calculation`.  Mirrors the
Python dispatch on the operation string; `numbers[0]` on an empty list
raises `IndexError`, so `subtract` and `divide` return that error there;
`multiply` starts its running product from the `int` `1`; an unknown
operation raises `ValueError(f"Unsupported operation: \x7boperation\x7d")`. -/
def _perform_calculation (operation : String) (numbers : List PyNum) :
    Except PyError PyNum :=
  if operation = "add" then
    .ok (pysum numbers)
  else if operation = "subtract" then
    match numbers with
    | [] => .error (.indexError "list index out of range")
    | x :: rest => .ok (x.sub (pysum rest))
  else if operation = "multiply" then
    .ok (numbers.foldl PyNum.mul (.pint 1))
  else if operation = "divide" then
    match numbers with
    | [] => .error (.indexError "list index out of range")
    | x :: rest => rest.foldlM PyNum.div x
  else
    .error (.valueError ("Unsupported operation: " ++ operation))

/-- The `input` dict of a tool-use content block.  The two keys the code
reads are modelled as optional fields; `none` models an absent key, and
subscripting an absent key raises `KeyError` (whose `str` is the repr of
the key, quotes included). -/
structure ToolInput where
  operation : Option String
  numbers : Option (List PyNum)
deriving DecidableEq, Repr

/-- One content block of a message: its `type` tag, tool `name`, and tool
`input`. -/
structure ContentItem where
  ctype : String
  name : String
  input : ToolInput
deriving DecidableEq, Repr

/-- A result message.  `content = none` models a message object without a
`content` attribute (`hasattr(message, 'content')` false). -/
structure Message where
  content : Option (List ContentItem)
deriving DecidableEq, Repr

/-- Evaluation of `content.input["operation"]` and `content.input["numbers"]`
followed by the call to `_perform_calculation`, inside the `try` block:
Python evaluates the two subscripts left to right, raising
`KeyError('operation')` respectively `KeyError('numbers')` on a missing
key (with `str(e)` rendering the key repr, quotes included). -/
def tryCalculation (input : ToolInput) : Except PyError PyNum := do
  let op ← match input.operation with
    | some op => Except.ok op
    | none => Except.error (.keyError "\x27operation\x27")
  let nums ← match input.numbers with
    | some ns => Except.ok ns
    | none => Except.error (.keyError "\x27numbers\x27")
  _perform_calculation op nums

/-- Python `str()` of a number, as used by `f"Result: \x7bresult\x7d"`:
an `int` prints its decimal digits; a `float` with integral value prints
with a trailing `.0` (the only float rendering the claims depend on). -/
def PyNum.str : PyNum → String
  | .pint n => toString n
  | .pfloat q => if q.den = 1 then toString q.num ++ ".0" else toString q

/-- The `try`/`except` block of `_process_tool_use`: a successful
calculation renders `f"Result: \x7bresult\x7d"`, a raised exception is
caught and rendered `f"Error during calculation: \x7bstr(e)\x7d"`. -/
def renderCalculation (input : ToolInput) : String :=
  match tryCalculation input with
  | .ok result => "Result: " ++ result.str
  | .error e => "Error during calculation: " ++ e.str

/-- The body of the `for content in message.content` loop of
`_process_tool_use`: the first block whose `type` is `"tool_use"` is
dispatched through `renderCalculation` and its string returned; blocks
after it are never reached; if no block matches, the loop falls through to
the fixed no-tool-use string. -/
def processContentList : List ContentItem → String
  | [] => "No tool use found in message"
  | c :: rest =>
    if c.ctype = "tool_use" then renderCalculation c.input
    else processContentList rest

/-- Embedding of `BatchCalculatorAgent._process_tool_use`: a message with
no `content` attribute yields the fixed no-content error string; otherwise
the content blocks are scanned by `processContentList`. -/
def _process_tool_use (message : Message) : String :=
  match message.content with
  | none => "Error: No content in message"
  | some items => processContentList items

/-- String `s` begins with `p` (decidable, on the underlying character
lists). -/
def strBeginsWith (s p : String) : Bool :=
  p.data.isPrefixOf s.data

/-- The decimal digit character for `d` (`0` ↦ `'0'`, …, `9` ↦ `'9'`). -/
def digitCh (d : Nat) : Char :=
  Char.ofNat (48 + d)

/-- Decimal digits of a natural number, most significant first: the model
of Python's `str(i)` used by the f-string `f"calculation_\x7bi\x7d"`. -/
def decDigits (n : Nat) : List Char :=
  if n < 10 then [digitCh n]
  else decDigits (n / 10) ++ [digitCh (n % 10)]
decreasing_by exact Nat.div_lt_self (by omega) (by omega)

/-- Python `str(i)` for a natural `i`: its decimal digit string. -/
def natStr (n : Nat) : String :=
  List.asString (decDigits n)

/-- A JSON-like value, for the literal tool-schema dictionary. -/
inductive JVal where
  | jstr : String → JVal
  | jarr : List JVal → JVal
  | jobj : List (String × JVal) → JVal

/-- Embedding of `BatchCalculatorAgent._define_calculator_tool`: the fixed
calculator tool dictionary, verbatim. -/
def _define_calculator_tool : JVal :=
  .jobj
    [("name", .jstr "calculate"),
     ("description", .jstr "A simple calculator that can perform basic math operations"),
     ("input_schema", .jobj
       [("type", .jstr "object"),
        ("properties", .jobj
          [("operation", .jobj
            [("type", .jstr "string"),
             ("enum", .jarr [.jstr "add", .jstr "subtract", .jstr "multiply", .jstr "divide"]),
             ("description", .jstr "The math operation to perform")]),
           ("numbers", .jobj
            [("type", .jstr "array"),
             ("items", .jobj [("type", .jstr "number")]),
             ("description", .jstr "The numbers to perform the operation on")])]),
        ("required", .jarr [.jstr "operation", .jstr "numbers"])])]

/-- The fixed system prompt of `_create_batch_requests`, verbatim (a Python
triple-quoted string with its leading and trailing indentation). -/
def system_prompt : String :=
  "\n        You are a helpful calculator assistant. When users ask you to perform calculations, \n        use the calculate tool directly without explaining what you\x27re going to do first.\n        "

/-- One user message of a batch request. -/
structure UserMessage where
  role : String
  content : String
deriving DecidableEq, Repr

/-- The `params` dictionary of a batch request. -/
structure RequestParams where
  model : String
  max_tokens : Nat
  tools : List JVal
  system : String
  messages : List UserMessage

/-- One batch request descriptor. -/
structure BatchRequest where
  custom_id : String
  params : RequestParams

/-- Embedding of `BatchCalculatorAgent._create_batch_requests`: one request
per question, in question order, with `custom_id = "calculation_" ++ str i`
for the zero-based index `i`, the fixed model, `max_tokens`, tool list,
system prompt, and a single user message holding the question. -/
def _create_batch_requests (questions : List String) : List BatchRequest :=
  questions.enum.map fun p =>
    { custom_id := "calculation_" ++ natStr p.1,
      params :=
        { model := "claude-3-5-sonnet-20241022",
          max_tokens := 1024,
          tools := [_define_calculator_tool],
          system := system_prompt,
          messages := [{ role := "user", content := p.2 }] } }

/-- One entry of the result stream of a batch, as read by the monitor loop:
`result.custom_id`, `result.result.type` and `result.result.message`. -/
structure BatchResultEntry where
  custom_id : String
  rtype : String
  message : Message
deriving DecidableEq, Repr

/-- One poll observation of the external service: the `processing_status`
returned by `batches.retrieve` and the entries `batches.results` would
stream if enumerated at that moment. -/
structure PollObs where
  processing_status : String
  results : List BatchResultEntry
deriving DecidableEq, Repr

/-- The monitor's local state: the `results` dict (an insertion-ordered
association list with unique keys) and `processed_count`. -/
structure MonState where
  results : List (String × String)
  processed_count : Nat
deriving DecidableEq, Repr

/-- The body of the `for result in ... batches.results(batch_id)` loop: an
entry not yet recorded and whose outcome type is `"succeeded"` has its
message dispatched through `_process_tool_use`, is recorded under its
`custom_id`, and bumps `processed_count`; every other entry is skipped. -/
def stepResult (st : MonState) (r : BatchResultEntry) : MonState :=
  if (st.results.lookup r.custom_id).isNone ∧ r.rtype = "succeeded" then
    { results := st.results ++ [(r.custom_id, _process_tool_use r.message)],
      processed_count := st.processed_count + 1 }
  else
    st

/-- One iteration of the monitor's `while` loop body: when the polled
`processing_status` is `"ended"`, every streamed result entry is folded
through `stepResult`; otherwise the state is unchanged (the iteration only
sleeps). -/
def pollIter (st : MonState) (o : PollObs) : MonState :=
  if o.processing_status = "ended" then o.results.foldl stepResult st else st

/-- The monitor's `while processed_count < expected_count` loop, run
against a finite prefix `trace` of poll observations: each observation is
consumed only while the loop condition still holds. -/
def monitorFrom (expected : Nat) : MonState → List PollObs → MonState
  | st, [] => st
  | st, o :: os =>
    if st.processed_count < expected then monitorFrom expected (pollIter st o) os
    else st

/-- Embedding of `BatchCalculatorAgent._monitor_batch_progress`: the loop
started from the empty `results` dict and a zero `processed_count`. -/
def _monitor_batch_progress (expected : Nat) (trace : List PollObs) : MonState :=
  monitorFrom expected ⟨[], 0⟩ trace

/-- The monitor has returned within `trace`: its loop condition has become
false, so the accumulated `results` dict has been handed back. -/
def monitorReturned (expected : Nat) (trace : List PollObs) : Prop :=
  expected ≤ (_monitor_batch_progress expected trace).processed_count

/-- Some observation of `trace` was polled with status `"ended"` and
streamed a result entry for `k` with outcome type `"succeeded"`. -/
def succeededIn (trace : List PollObs) (k : String) : Prop :=
  ∃ o ∈ trace, o.processing_status = "ended" ∧
    ∃ r ∈ o.results, r.custom_id = k ∧ r.rtype = "succeeded"

instance (trace : List PollObs) (k : String) : Decidable (succeededIn trace k) := by
  unfold succeededIn
  infer_instance

/-- Numeric value of a decimal digit character. -/
def charVal (c : Char) : Nat :=
  c.toNat - 48

/-- Decimal value of a digit string (used only to invert `decDigits`). -/
def parseDec (l : List Char) : Nat :=
  l.foldl (fun a c => 10 * a + charVal c) 0

/-- A message whose content is `pre`, then a `"tool_use"` block invoking
tool `name` with `input`, then `post`. -/
def toolUseMessage (pre post : List ContentItem) (name : String)
    (input : ToolInput) : Message :=
  ⟨some (pre ++ { ctype := "tool_use", name := name, input := input } :: post)⟩

/-- Proof-internal invariant of the monitor's state: `processed_count`
matches the size of the results dict, the dict's keys are pairwise
distinct, and every key belongs to `ids` (the submitted custom ids). -/
def MonitorInvariant (ids : List String) (st : MonState) : Prop :=
  st.processed_count = st.results.length
  ∧ (st.results.map Prod.fst).Nodup
  ∧ ∀ k ∈ st.results.map Prod.fst, k ∈ ids

theorem PyNum.val_add (a b : PyNum) : (a.add b).val = a.val + b.val := by
  cases a <;> cases b <;> simp [PyNum.add, PyNum.val]

theorem PyNum.val_sub (a b : PyNum) : (a.sub b).val = a.val - b.val := by
  cases a <;> cases b <;> simp [PyNum.sub, PyNum.val]

theorem PyNum.val_mul (a b : PyNum) : (a.mul b).val = a.val * b.val := by
  cases a <;> cases b <;> simp [PyNum.mul, PyNum.val]

theorem foldl_add_val (l : List PyNum) :
    ∀ a : PyNum, (l.foldl PyNum.add a).val = a.val + (l.map PyNum.val).sum := by
  induction l with
  | nil => intro a; simp
  | cons x xs ih => intro a; simp [ih, PyNum.val_add]; ring

theorem pysum_val (l : List PyNum) : (pysum l).val = (l.map PyNum.val).sum := by
  rw [pysum, foldl_add_val]
  simp [PyNum.val]

theorem foldl_mul_val (l : List PyNum) :
    ∀ a : PyNum, (l.foldl PyNum.mul a).val = a.val * (l.map PyNum.val).prod := by
  induction l with
  | nil => intro a; simp
  | cons x xs ih => intro a; simp [ih, PyNum.val_mul]; ring

theorem foldlM_div_ok (l : List PyNum) :
    ∀ x : PyNum, (∀ y ∈ l, y.val ≠ 0) →
      ∃ r, l.foldlM PyNum.div x = .ok r ∧
        r.val = l.foldl (fun acc y => acc / y.val) x.val := by
  induction l with
  | nil => intro x _; exact ⟨x, rfl, rfl⟩
  | cons y ys ih =>
    intro x h
    have hy : y.val ≠ 0 := h y (by simp)
    obtain ⟨r, hr, hrv⟩ :=
      ih (.pfloat (x.val / y.val)) (fun z hz => h z (by simp [hz]))
    refine ⟨r, ?_, ?_⟩
    · simpa [List.foldlM_cons, PyNum.div, hy] using hr
    · simpa [PyNum.val] using hrv

/-- C1: `_perform_calculation` computes, for `"add"`, the sum of all
numbers; for `"subtract"` on a non-empty list, the first element minus the
sum of the remaining ones (so `subtract [a] = a` and
`subtract [a,b,c] = a - b - c`); for `"multiply"`, the product of all
elements with identity `1` on the empty list; for `"divide"` on a
non-empty list with no zero divisor among the remaining elements, the
first element divided by each remaining element as a left-to-right fold. -/
theorem perform_calculation_arithmetic (nums : List PyNum) (a b c x : PyNum)
    (rest : List PyNum) (hz : ∀ y ∈ rest, y.val ≠ 0) :
    (_perform_calculation "add" nums).map PyNum.val
        = .ok ((nums.map PyNum.val).sum)
    ∧ (_perform_calculation "subtract" (a :: nums)).map PyNum.val
        = .ok (a.val - (nums.map PyNum.val).sum)
    ∧ (_perform_calculation "subtract" [a]).map PyNum.val = .ok a.val
    ∧ (_perform_calculation "subtract" [a, b, c]).map PyNum.val
        = .ok (a.val - b.val - c.val)
    ∧ (_perform_calculation "multiply" nums).map PyNum.val
        = .ok ((nums.map PyNum.val).prod)
    ∧ (_perform_calculation "divide" (x :: rest)).map PyNum.val
        = .ok (rest.foldl (fun acc y => acc / y.val) x.val) := by
  obtain ⟨r, hr, hrv⟩ := foldlM_div_ok rest x hz
  have h5 := foldl_mul_val nums (.pint 1)
  rw [show (PyNum.pint 1).val = 1 from by simp [PyNum.val], one_mul] at h5
  refine ⟨?_, ?_, ?_, ?_, ?_, ?_⟩
  · simp [_perform_calculation, Except.map, pysum_val]
  · simp [_perform_calculation, Except.map, PyNum.val_sub, pysum_val]
  · simp [_perform_calculation, Except.map, PyNum.val_sub, pysum_val]
  · simp [_perform_calculation, Except.map, PyNum.val_sub, pysum_val]
    ring_nf
  · simp [_perform_calculation, Except.map, h5]
  · simp [_perform_calculation, Except.map, hr, hrv]

/-- Witness for `perform_calculation_arithmetic` at the spec's example
inputs. -/
theorem perform_calculation_arithmetic_witness :
    (∀ y ∈ [PyNum.pint 2], PyNum.val y ≠ 0)
    ∧ ((_perform_calculation "add" [PyNum.pint 25, PyNum.pint 17]).map PyNum.val
        = .ok (([PyNum.pint 25, PyNum.pint 17].map PyNum.val).sum)
    ∧ (_perform_calculation "subtract" (PyNum.pint 5 :: [PyNum.pint 25, PyNum.pint 17])).map PyNum.val
        = .ok ((PyNum.pint 5).val - ([PyNum.pint 25, PyNum.pint 17].map PyNum.val).sum)
    ∧ (_perform_calculation "subtract" [PyNum.pint 5]).map PyNum.val
        = .ok (PyNum.pint 5).val
    ∧ (_perform_calculation "subtract" [PyNum.pint 5, PyNum.pint 1, PyNum.pint 2]).map PyNum.val
        = .ok ((PyNum.pint 5).val - (PyNum.pint 1).val - (PyNum.pint 2).val)
    ∧ (_perform_calculation "multiply" [PyNum.pint 25, PyNum.pint 17]).map PyNum.val
        = .ok (([PyNum.pint 25, PyNum.pint 17].map PyNum.val).prod)
    ∧ (_perform_calculation "divide" (PyNum.pint 8 :: [PyNum.pint 2])).map PyNum.val
        = .ok ([PyNum.pint 2].foldl (fun acc y => acc / y.val) (PyNum.pint 8).val)) :=
  ⟨by decide,
   perform_calculation_arithmetic [PyNum.pint 25, PyNum.pint 17] (PyNum.pint 5)
     (PyNum.pint 1) (PyNum.pint 2) (PyNum.pint 8) [PyNum.pint 2] (by decide)⟩

theorem except_ok_bind {ε α β : Type} (a : α) (f : α → Except ε β) :
    (Except.ok a >>= f : Except ε β) = f a := rfl

theorem except_error_bind {ε α β : Type} (e : ε) (f : α → Except ε β) :
    (Except.error e >>= f : Except ε β) = Except.error e := rfl

theorem PyNum.isFloat_pint (n : Int) : (PyNum.pint n).isFloat = false := rfl

theorem PyNum.isFloat_pfloat (q : ℚ) : (PyNum.pfloat q).isFloat = true := rfl

theorem PyNum.isFloat_add (a b : PyNum) :
    (a.add b).isFloat = (a.isFloat || b.isFloat) := by
  cases a <;> cases b <;> rfl

theorem PyNum.isFloat_sub (a b : PyNum) :
    (a.sub b).isFloat = (a.isFloat || b.isFloat) := by
  cases a <;> cases b <;> rfl

theorem PyNum.isFloat_mul (a b : PyNum) :
    (a.mul b).isFloat = (a.isFloat || b.isFloat) := by
  cases a <;> cases b <;> rfl

theorem foldl_add_isFloat (l : List PyNum) :
    ∀ a : PyNum, (l.foldl PyNum.add a).isFloat = (a.isFloat || l.any PyNum.isFloat) := by
  induction l with
  | nil => intro a; simp
  | cons x xs ih => intro a; simp [ih, PyNum.isFloat_add, Bool.or_assoc]

theorem foldl_mul_isFloat (l : List PyNum) :
    ∀ a : PyNum, (l.foldl PyNum.mul a).isFloat = (a.isFloat || l.any PyNum.isFloat) := by
  induction l with
  | nil => intro a; simp
  | cons x xs ih => intro a; simp [ih, PyNum.isFloat_mul, Bool.or_assoc]

theorem foldlM_div_isFloat (l : List PyNum) :
    ∀ x r : PyNum, l.foldlM PyNum.div x = .ok r → (l = [] ∧ r = x) ∨ r.isFloat = true := by
  induction l with
  | nil =>
    intro x r h
    left
    exact ⟨rfl, by injection h with h2; exact h2.symm⟩
  | cons y ys ih =>
    intro x r h
    right
    rw [List.foldlM_cons] at h
    cases hxy : PyNum.div x y with
    | error e => rw [hxy, except_error_bind] at h; exact absurd h (by simp)
    | ok v =>
      rw [hxy, except_ok_bind] at h
      have h2 : ys.foldlM PyNum.div v = .ok r := h
      have hv : v.isFloat = true := by
        by_cases h0 : y.val = 0
        · simp [PyNum.div, h0] at hxy
        · simp [PyNum.div, h0] at hxy
          rw [← hxy]
          rfl
      rcases ih v r h2 with ⟨_, rfl⟩ | hf
      · exact hv
      · exact hf

/-- C3 counterexample: `add` over Python integer inputs yields a Python
`int`, not a float — `_perform_calculation "add" [25, 17]` returns the
`int` `42`, so an integer/float distinction from the input does survive to
the output. -/
theorem perform_calculation_int_counterexample :
    _perform_calculation "add" [PyNum.pint 25, PyNum.pint 17] = .ok (PyNum.pint 42)
    ∧ (PyNum.pint 42).isFloat = false :=
  ⟨rfl, rfl⟩

/-- C3 (amended): the int/float tag of the inputs is preserved rather than
erased — `add`, `subtract` and `multiply` yield a float exactly when some
input number is a float (so all-integer inputs yield an `int`), while
`divide` yields a float whenever at least one division is performed, and
returns the first element unchanged when the list is a singleton. -/
theorem perform_calculation_float_tags (nums rest : List PyNum) (a x y : PyNum)
    (hz : ∀ z ∈ y :: rest, z.val ≠ 0) :
    (_perform_calculation "add" nums).map PyNum.isFloat
        = .ok (nums.any PyNum.isFloat)
    ∧ (_perform_calculation "subtract" (a :: nums)).map PyNum.isFloat
        = .ok ((a :: nums).any PyNum.isFloat)
    ∧ (_perform_calculation "multiply" nums).map PyNum.isFloat
        = .ok (nums.any PyNum.isFloat)
    ∧ (_perform_calculation "divide" (x :: y :: rest)).map PyNum.isFloat = .ok true
    ∧ _perform_calculation "divide" [x] = .ok x := by
  obtain ⟨r, hr, _⟩ := foldlM_div_ok (y :: rest) x hz
  have hrf : r.isFloat = true := by
    rcases foldlM_div_isFloat (y :: rest) x r hr with ⟨h1, _⟩ | hf
    · exact absurd h1 (by simp)
    · exact hf
  refine ⟨?_, ?_, ?_, ?_, ?_⟩
  · simp [_perform_calculation, Except.map, pysum, foldl_add_isFloat,
      PyNum.isFloat_pint]
  · simp [_perform_calculation, Except.map, pysum, PyNum.isFloat_sub,
      foldl_add_isFloat, PyNum.isFloat_pint]
  · simp [_perform_calculation, Except.map, foldl_mul_isFloat, PyNum.isFloat_pint]
  · simp [_perform_calculation, Except.map, hr, hrf]
  · simp [_perform_calculation]
    rfl

/-- Witness for `perform_calculation_float_tags` at concrete inputs. -/
theorem perform_calculation_float_tags_witness :
    (∀ z ∈ [PyNum.pint 4, PyNum.pfloat 2], PyNum.val z ≠ 0)
    ∧ ((_perform_calculation "add" [PyNum.pint 25, PyNum.pfloat 17]).map PyNum.isFloat
        = .ok ([PyNum.pint 25, PyNum.pfloat 17].any PyNum.isFloat)
    ∧ (_perform_calculation "subtract" (PyNum.pint 5 :: [PyNum.pint 25, PyNum.pfloat 17])).map PyNum.isFloat
        = .ok ((PyNum.pint 5 :: [PyNum.pint 25, PyNum.pfloat 17]).any PyNum.isFloat)
    ∧ (_perform_calculation "multiply" [PyNum.pint 25, PyNum.pfloat 17]).map PyNum.isFloat
        = .ok ([PyNum.pint 25, PyNum.pfloat 17].any PyNum.isFloat)
    ∧ (_perform_calculation "divide" (PyNum.pint 100 :: PyNum.pint 4 :: [PyNum.pfloat 2])).map PyNum.isFloat
        = .ok true
    ∧ _perform_calculation "divide" [PyNum.pint 100] = .ok (PyNum.pint 100)) :=
  ⟨by decide,
   perform_calculation_float_tags [PyNum.pint 25, PyNum.pfloat 17] [PyNum.pfloat 2]
     (PyNum.pint 5) (PyNum.pint 100) (PyNum.pint 4) (by decide)⟩

theorem foldlM_div_zero (l : List PyNum) :
    ∀ x : PyNum, (∃ y ∈ l, y.val = 0) →
      ∃ m, l.foldlM PyNum.div x = .error (.zeroDivisionError m) := by
  induction l with
  | nil => intro x h; simp at h
  | cons y ys ih =>
    intro x h
    by_cases hy : y.val = 0
    · refine ⟨if x.isFloat || y.isFloat then "float division by zero"
        else "division by zero", ?_⟩
      rw [List.foldlM_cons]
      have hd : PyNum.div x y = .error (.zeroDivisionError
          (if x.isFloat || y.isFloat then "float division by zero"
            else "division by zero")) := by
        rw [PyNum.div, if_pos hy]
      rw [hd, except_error_bind]
    · have h2 : ∃ z ∈ ys, z.val = 0 := by
        obtain ⟨z, hz, hz0⟩ := h
        rcases List.mem_cons.mp hz with rfl | hmem
        · exact absurd hz0 hy
        · exact ⟨z, hmem, hz0⟩
      obtain ⟨m, hm⟩ := ih (.pfloat (x.val / y.val)) h2
      refine ⟨m, ?_⟩
      rw [List.foldlM_cons]
      have hd : PyNum.div x y = .ok (.pfloat (x.val / y.val)) := by
        rw [PyNum.div, if_neg hy]
      rw [hd, except_ok_bind, hm]

theorem isPrefixOf_append_self (p m : List Char) : p.isPrefixOf (p ++ m) = true := by
  induction p with
  | nil => simp [List.isPrefixOf]
  | cons c cs ih => simp [List.isPrefixOf, ih]

theorem strBeginsWith_append (p m : String) : strBeginsWith (p ++ m) p = true := by
  have h : (p ++ m).data = p.data ++ m.data := rfl
  rw [strBeginsWith, h, isPrefixOf_append_self]

theorem string_append_assoc (s t u : String) : s ++ t ++ u = s ++ (t ++ u) := by
  apply congrArg String.mk
  show s.data ++ t.data ++ u.data = s.data ++ (t.data ++ u.data)
  exact List.append_assoc _ _ _

theorem error_string_ne_result_string (m : String) (v : PyNum) :
    ("Error during calculation: " ++ m) ≠ ("Result: " ++ v.str) := by
  intro h
  have h2 : ('E' :: "rror during calculation: ".data ++ m.data) =
      ('R' :: "esult: ".data ++ v.str.data) := congrArg String.data h
  simp at h2

theorem processContentList_append_skip (pre rest : List ContentItem)
    (hpre : ∀ c ∈ pre, c.ctype ≠ "tool_use") :
    processContentList (pre ++ rest) = processContentList rest := by
  induction pre with
  | nil => rfl
  | cons c cs ih =>
    have hc : c.ctype ≠ "tool_use" := hpre c (by simp)
    rw [List.cons_append]
    show (if c.ctype = "tool_use" then renderCalculation c.input
      else processContentList (cs ++ rest)) = processContentList rest
    rw [if_neg hc]
    exact ih (fun d hd => hpre d (by simp [hd]))

theorem process_toolUseMessage (pre post : List ContentItem) (name : String)
    (input : ToolInput) (hpre : ∀ c ∈ pre, c.ctype ≠ "tool_use") :
    _process_tool_use (toolUseMessage pre post name input)
      = renderCalculation input := by
  show processContentList
    (pre ++ { ctype := "tool_use", name := name, input := input } :: post) = _
  rw [processContentList_append_skip _ _ hpre]
  rfl

/-- C4: dispatching `"divide"` on a non-empty list whose remainder contains
a zero through `_process_tool_use` yields a string beginning with
`Error during calculation: ` — never a numeric `Result: ` string — the
division error being converted to a string, not propagated. -/
theorem divide_by_zero_dispatch (name : String) (pre post : List ContentItem)
    (x : PyNum) (rest : List PyNum)
    (hpre : ∀ c ∈ pre, c.ctype ≠ "tool_use")
    (hzero : ∃ y ∈ rest, y.val = 0) :
    ∃ m, _process_tool_use
          (toolUseMessage pre post name ⟨some "divide", some (x :: rest)⟩)
        = "Error during calculation: " ++ m
      ∧ strBeginsWith
          (_process_tool_use
            (toolUseMessage pre post name ⟨some "divide", some (x :: rest)⟩))
          "Error during calculation: " = true
      ∧ ∀ v : PyNum, _process_tool_use
          (toolUseMessage pre post name ⟨some "divide", some (x :: rest)⟩)
        ≠ "Result: " ++ PyNum.str v := by
  obtain ⟨m, hm⟩ := foldlM_div_zero rest x hzero
  have hout : _process_tool_use
      (toolUseMessage pre post name ⟨some "divide", some (x :: rest)⟩)
      = "Error during calculation: " ++ m := by
    rw [process_toolUseMessage _ _ _ _ hpre]
    simp [renderCalculation, tryCalculation, _perform_calculation,
      except_ok_bind, hm, PyError.str]
  refine ⟨m, hout, ?_, ?_⟩
  · rw [hout]; exact strBeginsWith_append _ _
  · intro v; rw [hout]; exact error_string_ne_result_string m v

/-- Witness for `divide_by_zero_dispatch`: dividing `[1, 0]`. -/
theorem divide_by_zero_dispatch_witness :
    (∀ c ∈ ([] : List ContentItem), c.ctype ≠ "tool_use")
    ∧ (∃ y ∈ [PyNum.pint 0], PyNum.val y = 0)
    ∧ ∃ m, _process_tool_use
          (toolUseMessage [] [] "calculate" ⟨some "divide", some (PyNum.pint 1 :: [PyNum.pint 0])⟩)
        = "Error during calculation: " ++ m
      ∧ strBeginsWith
          (_process_tool_use
            (toolUseMessage [] [] "calculate" ⟨some "divide", some (PyNum.pint 1 :: [PyNum.pint 0])⟩))
          "Error during calculation: " = true
      ∧ ∀ v : PyNum, _process_tool_use
          (toolUseMessage [] [] "calculate" ⟨some "divide", some (PyNum.pint 1 :: [PyNum.pint 0])⟩)
        ≠ "Result: " ++ PyNum.str v :=
  ⟨by simp, by decide,
   divide_by_zero_dispatch "calculate" [] [] (PyNum.pint 1) [PyNum.pint 0]
     (by simp) (by decide)⟩

/-- C5: `_process_tool_use` dispatches exactly the first `"tool_use"`
content block — blocks after it are ignored (the output does not depend on
them) — rendering either a `Result: ` or an `Error during calculation: `
string for it; content with no tool-use block yields the fixed
`No tool use found in message` signal; a message without a content
structure yields the fixed no-content error string, no exception being
raised. -/
theorem process_tool_use_first_block (pre post post2 items : List ContentItem)
    (c : ContentItem)
    (hpre : ∀ x ∈ pre, x.ctype ≠ "tool_use") (hc : c.ctype = "tool_use")
    (hnone : ∀ x ∈ items, x.ctype ≠ "tool_use") :
    _process_tool_use ⟨some (pre ++ c :: post)⟩ = renderCalculation c.input
    ∧ _process_tool_use ⟨some (pre ++ c :: post)⟩
        = _process_tool_use ⟨some (pre ++ c :: post2)⟩
    ∧ ((∃ r, tryCalculation c.input = .ok r
          ∧ renderCalculation c.input = "Result: " ++ PyNum.str r)
        ∨ (∃ e, tryCalculation c.input = .error e
          ∧ renderCalculation c.input = "Error during calculation: " ++ PyError.str e))
    ∧ _process_tool_use ⟨some items⟩ = "No tool use found in message"
    ∧ _process_tool_use ⟨none⟩ = "Error: No content in message" := by
  have hdisp : ∀ tail : List ContentItem,
      _process_tool_use ⟨some (pre ++ c :: tail)⟩ = renderCalculation c.input := by
    intro tail
    show processContentList (pre ++ c :: tail) = _
    rw [processContentList_append_skip _ _ hpre]
    show (if c.ctype = "tool_use" then renderCalculation c.input
      else processContentList tail) = _
    rw [if_pos hc]
  refine ⟨hdisp post, (hdisp post).trans (hdisp post2).symm, ?_, ?_, rfl⟩
  · cases htri : tryCalculation c.input with
    | ok r => exact Or.inl ⟨r, rfl, by rw [renderCalculation, htri]⟩
    | error e => exact Or.inr ⟨e, rfl, by rw [renderCalculation, htri]⟩
  · show processContentList items = _
    have h2 := processContentList_append_skip items [] hnone
    rwa [List.append_nil] at h2

/-- Witness for `process_tool_use_first_block`: a lone tool-use block
adding `[25, 17]`, with differing ignored tails. -/
theorem process_tool_use_first_block_witness :
    (∀ x ∈ ([] : List ContentItem), x.ctype ≠ "tool_use")
    ∧ ((⟨"tool_use", "calculate",
          ⟨some "add", some [PyNum.pint 25, PyNum.pint 17]⟩⟩ : ContentItem).ctype
        = "tool_use")
    ∧ _process_tool_use ⟨some ([] ++ (⟨"tool_use", "calculate",
          ⟨some "add", some [PyNum.pint 25, PyNum.pint 17]⟩⟩ : ContentItem) :: [])⟩
        = renderCalculation
            ((⟨"tool_use", "calculate",
              ⟨some "add", some [PyNum.pint 25, PyNum.pint 17]⟩⟩ : ContentItem)).input := by
  refine ⟨by simp, rfl, ?_⟩
  exact (process_tool_use_first_block [] [] [⟨"text", "", ⟨none, none⟩⟩] []
    (⟨"tool_use", "calculate", ⟨some "add", some [PyNum.pint 25, PyNum.pint 17]⟩⟩ : ContentItem)
    (by simp) rfl (by simp)).1

/-- C7: an operation name outside the four supported ones, dispatched
through `_process_tool_use`, yields the formatted error string (no raised
exception); in particular operation `"modulo"` yields exactly
`Error during calculation: Unsupported operation: modulo`. -/
theorem unsupported_operation_dispatch (op name : String) (nums : List PyNum)
    (pre post : List ContentItem)
    (hpre : ∀ c ∈ pre, c.ctype ≠ "tool_use")
    (hop : op ≠ "add" ∧ op ≠ "subtract" ∧ op ≠ "multiply" ∧ op ≠ "divide") :
    _process_tool_use (toolUseMessage pre post name ⟨some op, some nums⟩)
        = "Error during calculation: Unsupported operation: " ++ op
    ∧ _process_tool_use (toolUseMessage [] [] name ⟨some "modulo", some nums⟩)
        = "Error during calculation: Unsupported operation: modulo" := by
  obtain ⟨h1, h2, h3, h4⟩ := hop
  constructor
  · rw [process_toolUseMessage _ _ _ _ hpre]
    show renderCalculation ⟨some op, some nums⟩ = _
    rw [renderCalculation]
    have hcalc : tryCalculation ⟨some op, some nums⟩
        = .error (.valueError ("Unsupported operation: " ++ op)) := by
      show _perform_calculation op nums = _
      rw [_perform_calculation.eq_def]
      rw [if_neg h1, if_neg h2, if_neg h3, if_neg h4]
    rw [hcalc]
    show "Error during calculation: " ++ ("Unsupported operation: " ++ op) = _
    rw [← string_append_assoc]
    rfl
  · rfl

/-- Witness for `unsupported_operation_dispatch` at operation `"modulo"`. -/
theorem unsupported_operation_dispatch_witness :
    ("modulo" ≠ "add" ∧ "modulo" ≠ "subtract" ∧ "modulo" ≠ "multiply"
      ∧ "modulo" ≠ "divide")
    ∧ (_process_tool_use
          (toolUseMessage [] [] "calculate" ⟨some "modulo", some [PyNum.pint 7]⟩)
        = "Error during calculation: Unsupported operation: " ++ "modulo"
      ∧ _process_tool_use
          (toolUseMessage [] [] "calculate" ⟨some "modulo", some [PyNum.pint 7]⟩)
        = "Error during calculation: Unsupported operation: modulo") :=
  ⟨by decide,
   unsupported_operation_dispatch "modulo" "calculate" [PyNum.pint 7] [] []
     (by simp) (by decide)⟩

/-- C9: a tool-use block whose input lacks a required key — `"operation"`
or `"numbers"` — has the resulting `KeyError` caught and rendered as a
generic `Error during calculation: ` string (the quoted key repr), not
propagated to the caller. -/
theorem malformed_input_dispatch (name : String) (nums : List PyNum) (op : String) :
    _process_tool_use (toolUseMessage [] [] name ⟨none, some nums⟩)
        = "Error during calculation: \x27operation\x27"
    ∧ _process_tool_use (toolUseMessage [] [] name ⟨none, none⟩)
        = "Error during calculation: \x27operation\x27"
    ∧ _process_tool_use (toolUseMessage [] [] name ⟨some op, none⟩)
        = "Error during calculation: \x27numbers\x27" :=
  ⟨rfl, rfl, rfl⟩

/-- C10: on the empty numbers list, `add` returns the `int` `0`, while
`subtract` and `divide` index the first element and fail with an
`IndexError`, which `_process_tool_use` converts into an
`Error during calculation: ` string instead of crashing. -/
theorem empty_numbers_dispatch (name : String) :
    _perform_calculation "add" [] = .ok (PyNum.pint 0)
    ∧ _perform_calculation "subtract" []
        = .error (.indexError "list index out of range")
    ∧ _perform_calculation "divide" []
        = .error (.indexError "list index out of range")
    ∧ _process_tool_use (toolUseMessage [] [] name ⟨some "subtract", some []⟩)
        = "Error during calculation: list index out of range"
    ∧ _process_tool_use (toolUseMessage [] [] name ⟨some "divide", some []⟩)
        = "Error during calculation: list index out of range" :=
  ⟨rfl, rfl, rfl, rfl, rfl⟩

theorem charVal_digitCh (d : Nat) (h : d < 10) : charVal (digitCh d) = d := by
  interval_cases d <;> decide

theorem parseDec_append_digit (ds : List Char) (c : Char) :
    parseDec (ds ++ [c]) = 10 * parseDec ds + charVal c := by
  rw [parseDec, List.foldl_append]
  rfl

theorem parseDec_decDigits (n : Nat) : parseDec (decDigits n) = n := by
  induction n using decDigits.induct with
  | case1 n h =>
    rw [decDigits, if_pos h]
    show 10 * 0 + charVal (digitCh n) = n
    rw [charVal_digitCh n h]
    omega
  | case2 n h ih =>
    rw [decDigits, if_neg h, parseDec_append_digit, ih,
      charVal_digitCh _ (Nat.mod_lt n (by omega))]
    omega

theorem calculationId_injective :
    Function.Injective (fun i : Nat => "calculation_" ++ natStr i) := by
  intro m n h
  have h2 : "calculation_".data ++ decDigits m = "calculation_".data ++ decDigits n :=
    congrArg String.data h
  have h3 : decDigits m = decDigits n := List.append_cancel_left h2
  have h4 := congrArg parseDec h3
  rwa [parseDec_decDigits, parseDec_decDigits] at h4

theorem create_batch_requests_custom_ids (questions : List String) :
    (_create_batch_requests questions).map BatchRequest.custom_id
      = (List.range questions.length).map (fun i => "calculation_" ++ natStr i) := by
  rw [_create_batch_requests, List.map_map, ← List.enum_map_fst questions,
    List.map_map]
  rfl

/-- C6: `_create_batch_requests` over `n` questions yields exactly `n`
request descriptors in question order, with custom ids
`calculation_0` … `calculation_(n-1)` derived from the zero-based
position — hence pairwise distinct — each carrying the identical fixed
model, system instruction and calculator tool schema and a single user
message holding the question unchanged; the operation is total, whatever
the question strings are. -/
theorem create_batch_requests_spec (questions : List String) (i : Nat) (q : String)
    (hq : questions.get? i = some q) :
    (_create_batch_requests questions).length = questions.length
    ∧ ((_create_batch_requests questions).map BatchRequest.custom_id).Nodup
    ∧ ∃ r, (_create_batch_requests questions).get? i = some r
        ∧ r.custom_id = "calculation_" ++ natStr i
        ∧ r.params.model = "claude-3-5-sonnet-20241022"
        ∧ r.params.max_tokens = 1024
        ∧ r.params.system = system_prompt
        ∧ r.params.tools = [_define_calculator_tool]
        ∧ r.params.messages = [⟨"user", q⟩] := by
  refine ⟨?_, ?_, ?_⟩
  · rw [_create_batch_requests, List.length_map, List.enum_length]
  · rw [create_batch_requests_custom_ids]
    exact (List.nodup_range _).map calculationId_injective
  · have hr : (_create_batch_requests questions).get? i
        = some ⟨"calculation_" ++ natStr i,
            ⟨"claude-3-5-sonnet-20241022", 1024, [_define_calculator_tool],
              system_prompt, [⟨"user", q⟩]⟩⟩ := by
      rw [_create_batch_requests, List.get?_map, List.get?_enum, hq]
      rfl
    exact ⟨_, hr, rfl, rfl, rfl, rfl, rfl, rfl⟩

/-- Witness for `create_batch_requests_spec` on a two-question list. -/
theorem create_batch_requests_spec_witness :
    (["q0", "q1"].get? 1 = some "q1")
    ∧ ((_create_batch_requests ["q0", "q1"]).length = (["q0", "q1"] : List String).length
    ∧ ((_create_batch_requests ["q0", "q1"]).map BatchRequest.custom_id).Nodup
    ∧ ∃ r, (_create_batch_requests ["q0", "q1"]).get? 1 = some r
        ∧ r.custom_id = "calculation_" ++ natStr 1
        ∧ r.params.model = "claude-3-5-sonnet-20241022"
        ∧ r.params.max_tokens = 1024
        ∧ r.params.system = system_prompt
        ∧ r.params.tools = [_define_calculator_tool]
        ∧ r.params.messages = [⟨"user", "q1"⟩]) :=
  ⟨rfl, create_batch_requests_spec ["q0", "q1"] 1 "q1" rfl⟩

theorem lookup_none_iff (l : List (String × String)) (k : String) :
    l.lookup k = none ↔ k ∉ l.map Prod.fst := by
  induction l with
  | nil => simp [List.lookup]
  | cons p ps ih =>
    obtain ⟨a, b⟩ := p
    rw [List.map_cons]
    by_cases h : k = a
    · subst h
      have hstep : List.lookup k ((k, b) :: ps) = some b := by simp [List.lookup]
      rw [hstep]
      simp
    · have hstep : List.lookup k ((a, b) :: ps) = List.lookup k ps := by
        simp [List.lookup, beq_eq_false_iff_ne.mpr h]
      rw [hstep, ih]
      simp [List.mem_cons, h]

theorem monitorFrom_stuck (expected : Nat) (st : MonState) (t : List PollObs)
    (h : ¬ st.processed_count < expected) : monitorFrom expected st t = st := by
  cases t with
  | nil => rfl
  | cons o os =>
    show (if st.processed_count < expected
      then monitorFrom expected (pollIter st o) os else st) = st
    rw [if_neg h]

theorem monitorFrom_append (expected : Nat) (t1 : List PollObs) :
    ∀ (st : MonState) (t2 : List PollObs),
      monitorFrom expected st (t1 ++ t2)
        = monitorFrom expected (monitorFrom expected st t1) t2 := by
  induction t1 with
  | nil => intro st t2; rfl
  | cons o os ih =>
    intro st t2
    by_cases h : st.processed_count < expected
    · simp only [List.cons_append, monitorFrom, if_pos h]
      exact ih _ _
    · simp only [List.cons_append, monitorFrom, if_neg h]
      exact (monitorFrom_stuck expected st t2 h).symm

theorem stepResult_processed_le (st : MonState) (r : BatchResultEntry) :
    st.processed_count ≤ (stepResult st r).processed_count := by
  rw [stepResult]
  split
  · exact Nat.le_succ _
  · exact Nat.le_refl _

theorem foldl_stepResult_processed_le (rs : List BatchResultEntry) :
    ∀ st : MonState, st.processed_count ≤ (rs.foldl stepResult st).processed_count := by
  induction rs with
  | nil => intro st; exact Nat.le_refl _
  | cons r rs ih =>
    intro st
    exact Nat.le_trans (stepResult_processed_le st r) (ih (stepResult st r))

theorem pollIter_processed_le (st : MonState) (o : PollObs) :
    st.processed_count ≤ (pollIter st o).processed_count := by
  rw [pollIter]
  split
  · exact foldl_stepResult_processed_le o.results st
  · exact Nat.le_refl _

theorem monitorFrom_processed_le (expected : Nat) (t : List PollObs) :
    ∀ st : MonState, st.processed_count ≤ (monitorFrom expected st t).processed_count := by
  induction t with
  | nil => intro st; exact Nat.le_refl _
  | cons o os ih =>
    intro st
    by_cases h : st.processed_count < expected
    · simp only [monitorFrom, if_pos h]
      exact Nat.le_trans (pollIter_processed_le st o) (ih _)
    · simp only [monitorFrom, if_neg h]
      exact Nat.le_refl _

theorem stepResult_inv (ids : List String) (st : MonState) (r : BatchResultEntry)
    (hr : r.custom_id ∈ ids) (h : MonitorInvariant ids st) :
    MonitorInvariant ids (stepResult st r) := by
  obtain ⟨h1, h2, h3⟩ := h
  rw [stepResult]
  split
  case isTrue hc =>
    have hkc : r.custom_id ∉ st.results.map Prod.fst :=
      (lookup_none_iff _ _).1 (Option.isNone_iff_eq_none.mp hc.1)
    refine ⟨?_, ?_, ?_⟩
    · simp [h1]
    · rw [List.map_append]
      refine List.Nodup.append h2 (by simp) ?_
      intro a ha hb
      simp at hb
      exact hkc (hb ▸ ha)
    · intro k hk
      rw [List.map_append] at hk
      rcases List.mem_append.mp hk with hk | hk
      · exact h3 k hk
      · simp at hk
        subst hk
        exact hr
  case isFalse => exact ⟨h1, h2, h3⟩

theorem foldl_stepResult_inv (ids : List String) (rs : List BatchResultEntry) :
    ∀ st : MonState, (∀ r ∈ rs, r.custom_id ∈ ids) → MonitorInvariant ids st →
      MonitorInvariant ids (rs.foldl stepResult st) := by
  induction rs with
  | nil => intro st _ h; exact h
  | cons r rs ih =>
    intro st hwf h
    exact ih (stepResult st r) (fun r2 h2 => hwf r2 (List.mem_cons_of_mem _ h2))
      (stepResult_inv ids st r (hwf r (List.mem_cons_self _ _)) h)

theorem pollIter_inv (ids : List String) (st : MonState) (o : PollObs)
    (hwf : ∀ r ∈ o.results, r.custom_id ∈ ids) (h : MonitorInvariant ids st) :
    MonitorInvariant ids (pollIter st o) := by
  rw [pollIter]
  split
  · exact foldl_stepResult_inv ids o.results st hwf h
  · exact h

theorem monitorFrom_inv (ids : List String) (expected : Nat) (t : List PollObs) :
    ∀ st : MonState, (∀ o ∈ t, ∀ r ∈ o.results, r.custom_id ∈ ids) →
      MonitorInvariant ids st → MonitorInvariant ids (monitorFrom expected st t) := by
  induction t with
  | nil => intro st _ h; exact h
  | cons o os ih =>
    intro st hwf h
    by_cases hg : st.processed_count < expected
    · simp only [monitorFrom, if_pos hg]
      exact ih _ (fun o2 h2 => hwf o2 (List.mem_cons_of_mem _ h2))
        (pollIter_inv ids st o (hwf o (List.mem_cons_self _ _)) h)
    · simp only [monitorFrom, if_neg hg]
      exact h

theorem inv_processed_le (ids : List String) (st : MonState)
    (h : MonitorInvariant ids st) : st.processed_count ≤ ids.length := by
  rw [h.1, ← List.length_map st.results Prod.fst]
  exact (List.subperm_of_subset h.2.1 (fun a ha => h.2.2 a ha)).length_le

theorem foldl_stepResult_key_src (rs : List BatchResultEntry) :
    ∀ (st : MonState) (k : String),
      k ∈ (rs.foldl stepResult st).results.map Prod.fst →
      k ∈ st.results.map Prod.fst
        ∨ ∃ r ∈ rs, r.custom_id = k ∧ r.rtype = "succeeded" := by
  induction rs with
  | nil => intro st k h; exact Or.inl h
  | cons r rs ih =>
    intro st k h
    rcases ih (stepResult st r) k h with h2 | ⟨r2, hr2, hk⟩
    · rw [stepResult] at h2
      by_cases hc : (st.results.lookup r.custom_id).isNone ∧ r.rtype = "succeeded"
      · rw [if_pos hc] at h2
        rw [List.map_append] at h2
        rcases List.mem_append.mp h2 with h3 | h3
        · exact Or.inl h3
        · simp at h3
          exact Or.inr ⟨r, List.mem_cons_self _ _, h3.symm, hc.2⟩
      · rw [if_neg hc] at h2
        exact Or.inl h2
    · exact Or.inr ⟨r2, List.mem_cons_of_mem _ hr2, hk⟩

theorem pollIter_key_src (st : MonState) (o : PollObs) (k : String) :
    k ∈ (pollIter st o).results.map Prod.fst →
    k ∈ st.results.map Prod.fst
      ∨ (o.processing_status = "ended"
          ∧ ∃ r ∈ o.results, r.custom_id = k ∧ r.rtype = "succeeded") := by
  rw [pollIter]
  split
  case isTrue hs =>
    intro h
    rcases foldl_stepResult_key_src o.results st k h with h2 | h2
    · exact Or.inl h2
    · exact Or.inr ⟨hs, h2⟩
  case isFalse => exact Or.inl

theorem monitorFrom_key_src (expected : Nat) (t : List PollObs) :
    ∀ (st : MonState) (k : String),
      k ∈ (monitorFrom expected st t).results.map Prod.fst →
      k ∈ st.results.map Prod.fst ∨ succeededIn t k := by
  induction t with
  | nil => intro st k h; exact Or.inl h
  | cons o os ih =>
    intro st k h
    by_cases hg : st.processed_count < expected
    · rw [monitorFrom, if_pos hg] at h
      rcases ih (pollIter st o) k h with h2 | h2
      · rcases pollIter_key_src st o k h2 with h3 | ⟨hs, r, hr, hk⟩
        · exact Or.inl h3
        · exact Or.inr ⟨o, List.mem_cons_self _ _, hs, r, hr, hk⟩
      · obtain ⟨o2, ho2, rest⟩ := h2
        exact Or.inr ⟨o2, List.mem_cons_of_mem _ ho2, rest⟩
    · rw [monitorFrom, if_neg hg] at h
      exact Or.inl h

/-- C2: across poll iterations `processed_count` never decreases; the
monitor returns exactly when `processed_count` reaches `expected_count`
(custom ids of streamed results being drawn from the `expected_count`
submitted ids); the result dict reaches size `expected_count` only when
every submitted id had a `"succeeded"` outcome; and an id that never had a
`"succeeded"` outcome is never recorded in the dict. -/
theorem monitor_progress_invariants (expected : Nat) (ids : List String)
    (trace t1 t2 : List PollObs) (k : String)
    (hids : ids.Nodup) (hlen : ids.length = expected)
    (hwf : ∀ o ∈ trace, ∀ r ∈ o.results, r.custom_id ∈ ids) :
    (_monitor_batch_progress expected t1).processed_count
        ≤ (_monitor_batch_progress expected (t1 ++ t2)).processed_count
    ∧ (monitorReturned expected trace ↔
        (_monitor_batch_progress expected trace).processed_count = expected)
    ∧ ((_monitor_batch_progress expected trace).results.length = expected →
        ∀ i ∈ ids, succeededIn trace i)
    ∧ (¬ succeededIn trace k →
        (_monitor_batch_progress expected trace).results.lookup k = none) := by
  have hinv : MonitorInvariant ids (_monitor_batch_progress expected trace) :=
    monitorFrom_inv ids expected trace ⟨[], 0⟩ hwf ⟨rfl, List.nodup_nil, by simp⟩
  refine ⟨?_, ?_, ?_, ?_⟩
  · rw [_monitor_batch_progress, _monitor_batch_progress, monitorFrom_append]
    exact monitorFrom_processed_le expected t2 _
  · constructor
    · intro hret
      have hret2 : expected ≤ (_monitor_batch_progress expected trace).processed_count :=
        hret
      have hle := inv_processed_le ids _ hinv
      rw [hlen] at hle
      omega
    · intro heq
      show expected ≤ _
      exact Nat.le_of_eq heq.symm
  · intro hsize i hi
    have hsub := List.subperm_of_subset hinv.2.1 (fun a ha => hinv.2.2 a ha)
    have hperm := hsub.perm_of_length_le
      (by rw [List.length_map, hsize, hlen])
    have hik : i ∈ (_monitor_batch_progress expected trace).results.map Prod.fst :=
      hperm.mem_iff.mpr hi
    rcases monitorFrom_key_src expected trace ⟨[], 0⟩ i hik with h0 | hs
    · exact absurd h0 (by simp)
    · exact hs
  · intro hnot
    rw [lookup_none_iff]
    intro hk
    rcases monitorFrom_key_src expected trace ⟨[], 0⟩ k hk with h0 | hs
    · exact absurd h0 (by simp)
    · exact hnot hs

/-- Witness for `monitor_progress_invariants`: one submitted id, one poll
observation ending with its succeeded result. -/
theorem monitor_progress_invariants_witness :
    ((["calculation_0"] : List String).Nodup
      ∧ (["calculation_0"] : List String).length = 1
      ∧ (∀ o ∈ [PollObs.mk "ended" [⟨"calculation_0", "succeeded", ⟨none⟩⟩]],
          ∀ r ∈ o.results, r.custom_id ∈ (["calculation_0"] : List String)))
    ∧ ((_monitor_batch_progress 1 ([] : List PollObs)).processed_count
        ≤ (_monitor_batch_progress 1
            (([] : List PollObs)
              ++ [PollObs.mk "ended" [⟨"calculation_0", "succeeded", ⟨none⟩⟩]])).processed_count
    ∧ (monitorReturned 1 [PollObs.mk "ended" [⟨"calculation_0", "succeeded", ⟨none⟩⟩]] ↔
        (_monitor_batch_progress 1
          [PollObs.mk "ended" [⟨"calculation_0", "succeeded", ⟨none⟩⟩]]).processed_count = 1)
    ∧ ((_monitor_batch_progress 1
          [PollObs.mk "ended" [⟨"calculation_0", "succeeded", ⟨none⟩⟩]]).results.length = 1 →
        ∀ i ∈ (["calculation_0"] : List String),
          succeededIn [PollObs.mk "ended" [⟨"calculation_0", "succeeded", ⟨none⟩⟩]] i)
    ∧ (¬ succeededIn [PollObs.mk "ended" [⟨"calculation_0", "succeeded", ⟨none⟩⟩]] "other" →
        (_monitor_batch_progress 1
          [PollObs.mk "ended" [⟨"calculation_0", "succeeded", ⟨none⟩⟩]]).results.lookup "other"
          = none)) :=
  ⟨⟨by decide, rfl, by decide⟩,
   monitor_progress_invariants 1 ["calculation_0"]
     [PollObs.mk "ended" [⟨"calculation_0", "succeeded", ⟨none⟩⟩]] [] [⟨"ended",
       [⟨"calculation_0", "succeeded", ⟨none⟩⟩]⟩] "other"
     (by decide) rfl (by decide)⟩

theorem monitorFrom_idle (expected n : Nat) :
    ∀ st : MonState,
      monitorFrom expected st (List.replicate n ⟨"in_progress", []⟩) = st := by
  induction n with
  | zero => intro st; rfl
  | succ m ih =>
    intro st
    rw [List.replicate_succ]
    by_cases h : st.processed_count < expected
    · simp only [monitorFrom, if_pos h]
      have hpoll : pollIter st ⟨"in_progress", []⟩ = st := by
        rw [pollIter, if_neg (by decide)]
      rw [hpoll]
      exact ih st
    · exact monitorFrom_stuck _ _ _ h

/-- C8: when some submitted id never reaches a `"succeeded"` outcome in
the observed polls, the monitor has not returned after any such finite
poll sequence; there is no upper bound on the number of polling attempts
(for every `n` there is a poll sequence of length at least `n` after which
it still has not returned); and every run after which the monitor did
return has `processed_count` equal to `expected_count`. -/
theorem monitor_never_returns (expected : Nat) (ids : List String)
    (trace : List PollObs) (k : String) (n : Nat)
    (hids : ids.Nodup) (hlen : ids.length = expected)
    (hwf : ∀ o ∈ trace, ∀ r ∈ o.results, r.custom_id ∈ ids)
    (hk : k ∈ ids) (hnever : ¬ succeededIn trace k) :
    ¬ monitorReturned expected trace
    ∧ (∃ t : List PollObs, n ≤ t.length ∧ ¬ monitorReturned expected t)
    ∧ ∀ trace2 : List PollObs,
        (∀ o ∈ trace2, ∀ r ∈ o.results, r.custom_id ∈ ids) →
        monitorReturned expected trace2 →
        (_monitor_batch_progress expected trace2).processed_count = expected := by
  have hexp : 1 ≤ expected := by
    have := List.length_pos_of_mem hk
    omega
  have hinv : MonitorInvariant ids (_monitor_batch_progress expected trace) :=
    monitorFrom_inv ids expected trace ⟨[], 0⟩ hwf ⟨rfl, List.nodup_nil, by simp⟩
  refine ⟨?_, ?_, ?_⟩
  · intro hret
    have hret2 : expected ≤ (_monitor_batch_progress expected trace).processed_count :=
      hret
    have hknotin : k ∉ (_monitor_batch_progress expected trace).results.map Prod.fst := by
      intro hkin
      rcases monitorFrom_key_src expected trace ⟨[], 0⟩ k hkin with h0 | hs
      · exact absurd h0 (by simp)
      · exact hnever hs
    have hsub : (_monitor_batch_progress expected trace).results.map Prod.fst
        ⊆ ids.erase k := by
      intro a ha
      have hane : a ≠ k := fun h => hknotin (h ▸ ha)
      exact (List.mem_erase_of_ne hane).mpr (hinv.2.2 a ha)
    have hle := (List.subperm_of_subset hinv.2.1 hsub).length_le
    rw [List.length_erase_of_mem hk] at hle
    rw [List.length_map] at hle
    have hp := hinv.1
    omega
  · refine ⟨List.replicate n ⟨"in_progress", []⟩, by rw [List.length_replicate], ?_⟩
    intro hret
    have hret2 : expected ≤ (_monitor_batch_progress expected
        (List.replicate n ⟨"in_progress", []⟩)).processed_count := hret
    rw [_monitor_batch_progress, monitorFrom_idle] at hret2
    have h0 : (⟨[], 0⟩ : MonState).processed_count = 0 := rfl
    omega
  · intro trace2 hwf2 hret
    have hret2 : expected ≤ (_monitor_batch_progress expected trace2).processed_count :=
      hret
    have hinv2 : MonitorInvariant ids (_monitor_batch_progress expected trace2) :=
      monitorFrom_inv ids expected trace2 ⟨[], 0⟩ hwf2 ⟨rfl, List.nodup_nil, by simp⟩
    have hle := inv_processed_le ids _ hinv2
    rw [hlen] at hle
    omega

/-- Witness for `monitor_never_returns`: one submitted id, a single
in-progress poll containing no result for it. -/
theorem monitor_never_returns_witness :
    ((["calculation_0"] : List String).Nodup
      ∧ (["calculation_0"] : List String).length = 1
      ∧ (∀ o ∈ [PollObs.mk "in_progress" []], ∀ r ∈ o.results,
          r.custom_id ∈ (["calculation_0"] : List String))
      ∧ "calculation_0" ∈ (["calculation_0"] : List String)
      ∧ ¬ succeededIn [PollObs.mk "in_progress" []] "calculation_0")
    ∧ (¬ monitorReturned 1 [PollObs.mk "in_progress" []]
    ∧ (∃ t : List PollObs, 3 ≤ t.length ∧ ¬ monitorReturned 1 t)
    ∧ ∀ trace2 : List PollObs,
        (∀ o ∈ trace2, ∀ r ∈ o.results,
          r.custom_id ∈ (["calculation_0"] : List String)) →
        monitorReturned 1 trace2 →
        (_monitor_batch_progress 1 trace2).processed_count = 1) :=
  ⟨⟨by decide, rfl, by decide, by decide, by decide⟩,
   monitor_never_returns 1 ["calculation_0"] [PollObs.mk "in_progress" []]
     "calculation_0" 3 (by decide) rfl (by decide) (by decide) (by decide)⟩
